import Mathlib

/-!
Verification development for the timba single-instance image viewer
(src/main.rs). The Rust source is shallowly embedded below:

* `Frame` models a decoded RGBA frame (`egui::ColorImage`); pixel data is a
  list of byte values, dimensions are the integral image dimensions (the
  source stores them as `f32` cast from `u32`, exact for realistic sizes).
* Time: `std::time::Instant` and `std::time::Duration` are modelled as `Nat`
  nanoseconds. `Instant::duration_since` on a monotonic clock is `Nat`
  subtraction (saturating, and the clock never runs backwards).
* `TimbaApp` models the `TimbaApp` struct (the ViewerState); the
  `mpsc::Receiver` field is modelled externally by feeding received paths to
  `TimbaApp.on_new_path`.
* Decoding is delegated to the external image codec, so a file's content is
  modelled by its decode outcome: `GifFile` for the animated path
  (`std::fs::File::open` + `GifDecoder::new` + `into_frames`), and
  `Except String Frame` for `image::open` on the static path.
* The socket listener thread's per-connection handling (main.rs lines
  330-372) is `handle_conn`; `String::from_utf8_lossy` is modelled as
  `String.mk` on the byte list, with bytes represented as `Char` (exact for
  ASCII payloads such as filesystem paths).
* The startup path-validation part of `main` (lines 269-290) is
  `main_startup`; `std::fs::canonicalize` is a `String → Option String`
  parameter, filesystem existence a `String → Bool` parameter.
-/

namespace Timba

/-- Decoded RGBA frame, modelling `egui::ColorImage`: integral dimensions and
raw pixel bytes. -/
structure Frame where
  width : Nat
  height : Nat
  pixels : List Nat
  deriving DecidableEq, Repr

/-- The `TimbaApp` struct of main.rs (the ViewerState), minus the
`mpsc::Receiver` (modelled externally). `texture` is the decoded frame
currently uploaded for display; `gif_frames` pairs each animation frame with
its display duration in nanoseconds; `last_frame_time` is the `Instant` of
the last frame advance. -/
structure TimbaApp where
  texture : Option Frame
  image_path : String
  error_message : Option String
  original_size : Option (Nat × Nat)
  gif_frames : Option (List (Frame × Nat))
  current_frame : Nat
  last_frame_time : Nat
  is_animated : Bool
  deriving DecidableEq, Repr

/-- Result of loading an image, modelling control flow out of
`TimbaApp::load_gif`: either a normal return with the mutated app state, or a
panic (an `unwrap` on an `Err` value), which aborts the process. -/
inductive LoadResult where
  | ok (s : TimbaApp) : LoadResult
  | panicked : LoadResult
  deriving DecidableEq, Repr

deriving instance DecidableEq for Except

/-- Decode outcome of a file processed along the animated (GIF) path.
`openErr`: `std::fs::File::open` failed. `headerErr`: `GifDecoder::new`
returned `Err` (malformed container/header). `frameResults`: the decoder was
constructed and `into_frames` yields this sequence of per-frame results, each
success carrying the decoded frame and its display duration. -/
inductive GifFile where
  | openErr (e : String) : GifFile
  | headerErr (e : String) : GifFile
  | frameResults (rs : List (Except String (Frame × Nat))) : GifFile
  deriving DecidableEq, Repr

/-- A file as seen by the two decoders: its outcome when decoded as a GIF and
its outcome when opened with `image::open` as a static image. The loader
chooses which view to use purely from the path's extension. -/
structure FSFile where
  gifView : GifFile
  staticView : Except String Frame

namespace TimbaApp

/-- `TimbaApp::new` (main.rs lines 118-130): fresh state with no content, no
error, index 0, not animated; `last_frame_time` is `Instant::now()` at
construction, passed here as `now`. -/
def new (image_path : String) (now : Nat) : TimbaApp :=
  { texture := none
    image_path := image_path
    error_message := none
    original_size := none
    gif_frames := none
    current_frame := 0
    last_frame_time := now
    is_animated := false }

/-- The reset block of `TimbaApp::update` that runs when `try_recv` yields a
new path (main.rs lines 34-44): stores the new path and clears texture,
error, size, frames, index and the animated flag. The source does not touch
`last_frame_time` here. -/
def on_new_path (s : TimbaApp) (new_path : String) : TimbaApp :=
  { s with
    image_path := new_path
    texture := none
    error_message := none
    original_size := none
    gif_frames := none
    current_frame := 0
    is_animated := false }

/-- `TimbaApp::update_texture` (main.rs lines 225-236): if gif frames are
present and the current index is in bounds, upload that frame as the texture;
otherwise do nothing. -/
def update_texture (s : TimbaApp) : TimbaApp :=
  match s.gif_frames with
  | some frames =>
    if h : s.current_frame < frames.length then
      { s with texture := some (frames.get ⟨s.current_frame, h⟩).1 }
    else s
  | none => s

/-- The GIF animation-timing block of `TimbaApp::update` (main.rs lines
58-72): when animated and frames are present with the index in bounds, if
`now.duration_since(last_frame_time)` is at least the current frame's
duration, advance the index by one modulo the frame count, stamp
`last_frame_time := now`, and re-upload the texture; otherwise leave the
state unchanged. -/
def update_animation (s : TimbaApp) (now : Nat) : TimbaApp :=
  if s.is_animated then
    match s.gif_frames with
    | some frames =>
      if h : s.current_frame < frames.length then
        if (frames.get ⟨s.current_frame, h⟩).2 ≤ now - s.last_frame_time then
          update_texture
            { s with
              current_frame := (s.current_frame + 1) % frames.length
              last_frame_time := now }
        else s
      else s
    | none => s
  else s

/-- `TimbaApp::load_static_image` (main.rs lines 144-177): on decode success
store the dimensions, upload the texture, force the non-animated state; on
failure record the error message. -/
def load_static_image (s : TimbaApp) (img : Except String Frame) :
    TimbaApp :=
  match img with
  | Except.ok f =>
    { s with
      original_size := some (f.width, f.height)
      texture := some f
      is_animated := false
      gif_frames := none }
  | Except.error e =>
    { s with error_message := some ("Failed to load image: " ++ e) }

/-- The frame-collection loop of `TimbaApp::load_gif` (main.rs lines
190-212): push decoded frames in order; the first per-frame error aborts the
whole load with that error. -/
def collectFrames (rs : List (Except String (Frame × Nat))) :
    Except String (List (Frame × Nat)) :=
  match rs with
  | [] => Except.ok []
  | Except.ok fr :: rest =>
    match collectFrames rest with
    | Except.ok l => Except.ok (fr :: l)
    | Except.error e => Except.error e
  | Except.error e :: _ => Except.error e

/-- `TimbaApp::load_gif` (main.rs lines 179-223). Open failure records an
error message. A `GifDecoder::new` failure hits the source's `.unwrap()` and
panics. A per-frame decode error records an error message. A non-empty frame
sequence installs the animated state (size from frame 0, index 0,
`last_frame_time := now`, animated flag set) and uploads the texture; an
empty sequence leaves the state untouched (the source's final
`if !gif_frames.is_empty()` has no else branch). -/
def load_gif (s : TimbaApp) (g : GifFile) (now : Nat) : LoadResult :=
  match g with
  | GifFile.openErr e =>
    LoadResult.ok { s with error_message := some ("Failed to open file: " ++ e) }
  | GifFile.headerErr _ => LoadResult.panicked
  | GifFile.frameResults rs =>
    match collectFrames rs with
    | Except.error e =>
      LoadResult.ok
        { s with error_message := some ("Failed to decode frame: " ++ e) }
    | Except.ok [] => LoadResult.ok s
    | Except.ok (f0 :: rest) =>
      LoadResult.ok (update_texture
        { s with
          original_size := some (f0.1.width, f0.1.height)
          gif_frames := some (f0 :: rest)
          current_frame := 0
          last_frame_time := now
          is_animated := true })

end TimbaApp

/-- Split a character list at occurrences of the path separator. Always
returns a non-empty list of chunks. -/
def splitSlash (cs : List Char) : List (List Char) :=
  match cs with
  | [] => [[]]
  | c :: rest =>
    let r := splitSlash rest
    if c = '/' then [] :: r
    else
      match r with
      | [] => [[c]]
      | h :: t => (c :: h) :: t

/-- Normal components of a path in order, as `std::path::Path::components`
produces them for the purpose of `file_name`: empty chunks (repeated or
trailing separators) and `.` chunks are dropped. -/
def pathComponents (cs : List Char) : List (List Char) :=
  (splitSlash cs).filter (fun c => !(c.isEmpty || c == ['.']))

/-- `std::path::Path::file_name`: the last normal component, or `none` when
there is none or the path ends in `..`. -/
def file_name (cs : List Char) : Option (List Char) :=
  match (pathComponents cs).getLast? with
  | none => none
  | some c => if c = ['.', '.'] then none else some c

/-- Split a file name at its last `.`: `some (stem, ext)` when a dot occurs,
`none` otherwise. -/
def splitLastDot (cs : List Char) : Option (List Char × List Char) :=
  match cs with
  | [] => none
  | c :: rest =>
    match splitLastDot rest with
    | some (b, a) => some (c :: b, a)
    | none => if c = '.' then some ([], rest) else none

/-- `std::path::Path::extension`: the portion of the file name after its last
dot, `none` when there is no file name, no embedded dot, or the name starts
with its only dot (hidden files). -/
def path_extension (p : String) : Option String :=
  match file_name p.data with
  | none => none
  | some n =>
    match splitLastDot n with
    | none => none
    | some (stem, ext) => if stem = [] then none else some (String.mk ext)

/-- Which decode path `TimbaApp::load_image` takes. -/
inductive Branch where
  | gifBranch : Branch
  | staticBranch : Branch
  deriving DecidableEq, Repr

/-- The classification in `TimbaApp::load_image` (main.rs lines 132-141):
the animated branch exactly when
`path.extension().and_then(|s| s.to_str()) == Some("gif")`. -/
def classify (p : String) : Branch :=
  if path_extension p == some ("gif") then Branch.gifBranch
  else Branch.staticBranch

namespace TimbaApp

/-- `TimbaApp::load_image` (main.rs lines 132-141): dispatch on the
extension of the current path; the chosen branch decodes the file at that
path through the corresponding view. -/
def load_image (s : TimbaApp) (fs : String → FSFile) (now : Nat) :
    LoadResult :=
  match classify s.image_path with
  | Branch.gifBranch => load_gif s (fs s.image_path).gifView now
  | Branch.staticBranch =>
    LoadResult.ok (load_static_image s (fs s.image_path).staticView)

end TimbaApp

/-- The fixed read-buffer capacity of the listener thread
(`let mut buffer = [0; 4096]`, main.rs line 336). -/
def BUF_CAP : Nat := 4096

/-- Outcome of the single `stream.read(&mut buffer)` call on an accepted
connection: either the bytes that arrived on the connection (the read
delivers at most `BUF_CAP` of them), or a read error. -/
inductive StreamRead where
  | bytes (payload : List Char) : StreamRead
  | readErr (e : String) : StreamRead

/-- Observable outcome of handling one accepted connection: the message
handed to `tx.send` and accepted by the channel (if any), the acknowledgment
bytes written back, and whether the accept loop proceeds to the next
connection. -/
structure ConnResult where
  enqueued : Option String
  ack : String
  continues : Bool
  deriving DecidableEq, Repr

/-- Per-connection handling in the listener thread (main.rs lines 335-366).
The read call fills at most `BUF_CAP` bytes, so the processed payload is
`payload.take BUF_CAP`. A positive byte count decodes the buffer contents as
the path and checks filesystem existence (`path_exists`); an existing path is
sent to the channel (`alive` models the receiver still being connected) and
acknowledged `OK`, every failure path writes `ERR`; the loop always
continues. -/
def handle_conn (r : StreamRead) (path_exists : String → Bool)
    (alive : Bool) : ConnResult :=
  match r with
  | StreamRead.readErr _ => { enqueued := none, ack := "ERR", continues := true }
  | StreamRead.bytes payload =>
    let buf := payload.take BUF_CAP
    if buf.length > 0 then
      let path := String.mk buf
      if path_exists path then
        if alive then { enqueued := some path, ack := "OK", continues := true }
        else { enqueued := none, ack := "ERR", continues := true }
      else { enqueued := none, ack := "ERR", continues := true }
    else { enqueued := none, ack := "ERR", continues := true }

/-- How far `main` gets before any transport activity (main.rs lines
269-290): missing argument, early return on a non-existing path, or entry
into the transport phase (the `UnixStream::connect` attempt and everything
after it). -/
inductive StartupOutcome where
  | usage : StartupOutcome
  | missingPath (p : String) : StartupOutcome
  | transportPhase (p : String) : StartupOutcome
  deriving DecidableEq, Repr

/-- Transport-level operations `main` can perform. -/
inductive TransportOp where
  | connectOp : TransportOp
  | bindOp : TransportOp
  | writeOp : TransportOp
  deriving DecidableEq, Repr

/-- The argument-checking and path-validation part of `main` (main.rs lines
269-290): fewer than two arguments prints usage and returns; otherwise the
path is `canonicalize`d with fallback to the raw argument, and a
non-existing result returns before any socket is touched. -/
def main_startup (args : List String) (canon : String → Option String)
    (path_exists : String → Bool) : StartupOutcome :=
  match args with
  | _ :: arg :: _ =>
    let image_path := (canon arg).getD arg
    if path_exists image_path then StartupOutcome.transportPhase image_path
    else StartupOutcome.missingPath image_path
  | _ => StartupOutcome.usage

/-- Transport operations performed in each startup outcome: the transport
phase always begins with the `UnixStream::connect` attempt; the usage and
missing-path returns perform none. -/
def transport_ops (o : StartupOutcome) : List TransportOp :=
  match o with
  | StartupOutcome.transportPhase _ => [TransportOp.connectOp]
  | _ => []

/-- A concrete 1x1 red RGBA frame used as test data. -/
def oneFrame : Frame := { width := 1, height := 1, pixels := [255, 0, 0, 255] }

/-- A GIF file that decodes cleanly to a single frame with a 100ns delay. -/
def goodGif : GifFile := GifFile.frameResults [Except.ok (oneFrame, 100)]

/-- Project the state out of a non-panicking load result. -/
def okState (r : LoadResult) : TimbaApp :=
  match r with
  | LoadResult.ok s => s
  | LoadResult.panicked => TimbaApp.new ("") 0

/-- A filesystem whose every file fails to decode under both views; used to
instantiate loader theorems on concrete inputs. -/
def stubFS (_p : String) : FSFile :=
  { gifView := GifFile.openErr ("no"), staticView := Except.error ("no") }

/-- `update_texture` only ever writes the `texture` field. -/
theorem update_texture_fields (s : TimbaApp) :
    (TimbaApp.update_texture s).gif_frames = s.gif_frames
    ∧ (TimbaApp.update_texture s).current_frame = s.current_frame
    ∧ (TimbaApp.update_texture s).is_animated = s.is_animated
    ∧ (TimbaApp.update_texture s).last_frame_time = s.last_frame_time
    ∧ (TimbaApp.update_texture s).error_message = s.error_message := by
  unfold TimbaApp.update_texture
  cases hf : s.gif_frames with
  | none => exact ⟨hf, rfl, rfl, rfl, rfl⟩
  | some frames =>
    by_cases h : s.current_frame < frames.length <;>
      simp [h, hf]

/-- Evaluation of the animation tick in the animated state with an in-bounds
index: a single conditional frame advance. -/
theorem update_animation_eq (s : TimbaApp) (now : Nat)
    (frames : List (Frame × Nat)) (ha : s.is_animated = true)
    (hf : s.gif_frames = some frames)
    (hlt : s.current_frame < frames.length) :
    TimbaApp.update_animation s now =
      if (frames.get ⟨s.current_frame, hlt⟩).2 ≤ now - s.last_frame_time then
        TimbaApp.update_texture
          { s with
            current_frame := (s.current_frame + 1) % frames.length
            last_frame_time := now }
      else s := by
  unfold TimbaApp.update_animation
  rw [ha, hf]
  simp [hlt]

/-- The animation tick either leaves the state unchanged or performs the
single clamped advance. -/
theorem update_animation_cases (s : TimbaApp) (now : Nat) :
    TimbaApp.update_animation s now = s
    ∨ ∃ frames, ∃ hlt : s.current_frame < frames.length,
        s.gif_frames = some frames
        ∧ (frames.get ⟨s.current_frame, hlt⟩).2 ≤ now - s.last_frame_time
        ∧ TimbaApp.update_animation s now = TimbaApp.update_texture
            { s with
              current_frame := (s.current_frame + 1) % frames.length
              last_frame_time := now } := by
  by_cases ha : s.is_animated = true
  · cases hf : s.gif_frames with
    | none =>
      left
      unfold TimbaApp.update_animation
      rw [ha, hf]
      simp
    | some frames =>
      by_cases hlt : s.current_frame < frames.length
      · rw [update_animation_eq s now frames ha hf hlt]
        by_cases hd : (frames.get ⟨s.current_frame, hlt⟩).2 ≤ now - s.last_frame_time
        · right
          refine ⟨frames, hlt, rfl, hd, ?_⟩
          rw [if_pos hd, hf]
        · left
          rw [if_neg hd]
      · left
        unfold TimbaApp.update_animation
        rw [ha, hf]
        simp [hlt]
  · left
    unfold TimbaApp.update_animation
    simp [ha]

/-- C1. The claim says a malformed animated file always yields a visible
error message and never terminates the process. The source instead calls
`GifDecoder::new(file).unwrap()`, so a `.gif` file whose bytes are not a
valid GIF stream makes the decoder constructor return `Err` and the unwrap
panics the process: the load evaluates to `panicked`, not to a state with an
error message. -/
theorem c1_malformed_gif_panics :
    TimbaApp.load_gif (TimbaApp.new ("/tmp/x.gif") 0)
        (GifFile.headerErr ("unsupported GIF signature")) 0
      = LoadResult.panicked := rfl

/-- C6 counterexample. After a successful animated load at time 42 (a
reachable state), consuming a new path message leaves `last_frame_time` at
42, whereas a freshly constructed state (its initial value) carries the
construction instant (0 here): the reset does not restore this field to its
initial value, so not every field is reset. -/
theorem c6_counterexample :
    (TimbaApp.on_new_path
        (okState (TimbaApp.load_gif (TimbaApp.new ("/tmp/a.gif") 0) goodGif 42))
        ("/tmp/b.png")).last_frame_time = 42
    ∧ (TimbaApp.new ("/tmp/b.png") 0).last_frame_time = 0 := by decide

/-- C6 amended: consuming a new path message resets the texture, error text,
natural dimensions, animation-frame sequence, animation index and
animated-flag to their initial values and stores the new path; the timestamp
of the last frame advance alone is left unchanged (it is refreshed only when
a subsequent animated load succeeds). -/
theorem c6_reset_fields (s : TimbaApp) (p : String) :
    (TimbaApp.on_new_path s p).image_path = p
    ∧ (TimbaApp.on_new_path s p).texture = none
    ∧ (TimbaApp.on_new_path s p).error_message = none
    ∧ (TimbaApp.on_new_path s p).original_size = none
    ∧ (TimbaApp.on_new_path s p).gif_frames = none
    ∧ (TimbaApp.on_new_path s p).current_frame = 0
    ∧ (TimbaApp.on_new_path s p).is_animated = false
    ∧ (TimbaApp.on_new_path s p).last_frame_time = s.last_frame_time :=
  ⟨rfl, rfl, rfl, rfl, rfl, rfl, rfl, rfl⟩

/-- C7 counterexample. An animated load that decodes to zero frames (with no
per-frame error) returns with the state fully unchanged: starting from a
fresh state the error text stays unset and no content is installed, so the
viewer shows a blank surface with no content and no error, contradicting the
claim that the error text is set. -/
theorem c7_counterexample :
    TimbaApp.load_gif (TimbaApp.new ("/tmp/e.gif") 0)
        (GifFile.frameResults []) 5
      = LoadResult.ok (TimbaApp.new ("/tmp/e.gif") 0)
    ∧ (TimbaApp.new ("/tmp/e.gif") 0).error_message = none
    ∧ (TimbaApp.new ("/tmp/e.gif") 0).texture = none := by decide

/-- C7 amended: when the animated load yields zero decodable frames with no
frame decode error, the loader leaves ViewerState entirely unchanged — no
error text and no content; only an actual frame decode error sets the error
text. -/
theorem c7_empty_sequence_behavior (s : TimbaApp) (now : Nat) :
    TimbaApp.load_gif s (GifFile.frameResults []) now = LoadResult.ok s
    ∧ (∀ e rest,
        TimbaApp.load_gif s (GifFile.frameResults (Except.error e :: rest)) now
          = LoadResult.ok
              { s with error_message := some ("Failed to decode frame: " ++ e) }) :=
  ⟨rfl, fun _ _ => rfl⟩

/-- C9. When the supplied path argument does not exist (so `canonicalize`
fails and the raw argument is used, which also fails the existence check),
`main` returns early with the missing-path outcome and performs no transport
operation: no connect, no bind, no payload write. -/
theorem c9_missing_path_no_transport (prog arg : String) (rest : List String)
    (canon : String → Option String) (path_exists : String → Bool)
    (hne : path_exists arg = false) (hcanon : canon arg = none) :
    main_startup (prog :: arg :: rest) canon path_exists
      = StartupOutcome.missingPath arg
    ∧ transport_ops (main_startup (prog :: arg :: rest) canon path_exists)
      = [] := by
  have h1 : main_startup (prog :: arg :: rest) canon path_exists
      = StartupOutcome.missingPath arg := by
    simp [main_startup, hcanon, hne]
  refine ⟨h1, ?_⟩
  rw [h1]
  rfl

/-- C9 witness: concrete invocation with a non-existing path on an empty
filesystem. -/
theorem c9_missing_path_no_transport_witness :
    (fun _ => (false : Bool)) ("/tmp/missing.png") = false
    ∧ main_startup (("timba") :: ("/tmp/missing.png") :: [])
        (fun _ => none) (fun _ => false)
      = StartupOutcome.missingPath ("/tmp/missing.png")
    ∧ transport_ops
        (main_startup (("timba") :: ("/tmp/missing.png") :: [])
          (fun _ => none) (fun _ => false))
      = [] := by
  refine ⟨rfl, ?_⟩
  exact c9_missing_path_no_transport ("timba") ("/tmp/missing.png") []
    (fun _ => none) (fun _ => false) rfl rfl

/-- C3. In the animated state with an in-bounds index, one tick performs the
clamped single-step advance: when the elapsed time since the last advance
reaches the current frame's duration the index becomes `(index + 1) mod
length` and the timestamp becomes `now` — a single step regardless of how
many frame durations have elapsed — and otherwise the state is unchanged;
in every case the index moves by at most one modular step per tick. -/
theorem c3_clamped_single_step (s : TimbaApp)
    (frames : List (Frame × Nat)) (now : Nat)
    (ha : s.is_animated = true) (hf : s.gif_frames = some frames)
    (hlt : s.current_frame < frames.length) :
    ((frames.get ⟨s.current_frame, hlt⟩).2 ≤ now - s.last_frame_time →
      (TimbaApp.update_animation s now).current_frame
          = (s.current_frame + 1) % frames.length
      ∧ (TimbaApp.update_animation s now).last_frame_time = now)
    ∧ (now - s.last_frame_time < (frames.get ⟨s.current_frame, hlt⟩).2 →
      TimbaApp.update_animation s now = s)
    ∧ ((TimbaApp.update_animation s now).current_frame = s.current_frame
      ∨ (TimbaApp.update_animation s now).current_frame
          = (s.current_frame + 1) % frames.length) := by
  rw [update_animation_eq s now frames ha hf hlt]
  by_cases hd : (frames.get ⟨s.current_frame, hlt⟩).2 ≤ now - s.last_frame_time
  · rw [if_pos hd]
    refine ⟨fun _ => ⟨?_, ?_⟩, fun hlt2 => absurd hd (not_le.mpr hlt2), Or.inr ?_⟩
    · exact (update_texture_fields _).2.1
    · exact (update_texture_fields _).2.2.2.1
    · exact (update_texture_fields _).2.1
  · rw [if_neg hd]
    exact ⟨fun h => absurd h hd, fun _ => rfl, Or.inl rfl⟩

/-- A concrete animated state: three frames with durations 2, 3 and 5,
index 0, last advance at time 0. -/
def animState : TimbaApp :=
  { texture := none
    image_path := "/tmp/a.gif"
    error_message := none
    original_size := some (1, 1)
    gif_frames := some [(oneFrame, 2), (oneFrame, 3), (oneFrame, 5)]
    current_frame := 0
    last_frame_time := 0
    is_animated := true }

/-- C3 witness: with durations [2, 3, 5] and 11 = 2 + 3 + 5 + 1 elapsed, one
tick advances the index by exactly one step, to 1. -/
theorem c3_clamped_single_step_witness :
    animState.is_animated = true
    ∧ animState.gif_frames = some [(oneFrame, 2), (oneFrame, 3), (oneFrame, 5)]
    ∧ (0 : Nat) < 3
    ∧ (TimbaApp.update_animation animState 11).current_frame = 1
    ∧ (TimbaApp.update_animation animState 11).last_frame_time = 11 := by
  refine ⟨rfl, rfl, by decide, ?_, ?_⟩
  · exact ((c3_clamped_single_step animState
      [(oneFrame, 2), (oneFrame, 3), (oneFrame, 5)] 11 rfl rfl
      (by decide)).1 (by decide)).1
  · exact ((c3_clamped_single_step animState
      [(oneFrame, 2), (oneFrame, 3), (oneFrame, 5)] 11 rfl rfl
      (by decide)).1 (by decide)).2

/-- Definitional unfolding of `handle_conn` on a successful read. -/
theorem handle_conn_bytes_def (payload : List Char) (pe : String → Bool)
    (alive : Bool) :
    handle_conn (StreamRead.bytes payload) pe alive =
      if (payload.take BUF_CAP).length > 0 then
        (if pe (String.mk (payload.take BUF_CAP)) then
          (if alive then
            { enqueued := some (String.mk (payload.take BUF_CAP))
              ack := "OK"
              continues := true }
           else { enqueued := none, ack := "ERR", continues := true })
         else { enqueued := none, ack := "ERR", continues := true })
      else { enqueued := none, ack := "ERR", continues := true } := rfl

/-- Evaluation of per-connection handling when the payload fits in the read
buffer: validation reduces to non-emptiness and existence of the decoded
path, then the channel send decides between OK and ERR. -/
theorem handle_conn_bytes_eval (payload : List Char) (pe : String → Bool)
    (alive : Bool) (hlen : payload.length ≤ BUF_CAP) :
    handle_conn (StreamRead.bytes payload) pe alive =
      if payload = [] then { enqueued := none, ack := "ERR", continues := true }
      else if pe (String.mk payload) then
        (if alive then
          { enqueued := some (String.mk payload), ack := "OK", continues := true }
         else { enqueued := none, ack := "ERR", continues := true })
      else { enqueued := none, ack := "ERR", continues := true } := by
  have htake : payload.take BUF_CAP = payload := List.take_of_length_le hlen
  unfold handle_conn
  simp only [htake]
  by_cases hp : payload = []
  · subst hp
    simp
  · have hpos : payload.length > 0 := List.length_pos.mpr hp
    simp [hpos, hp]

/-- The accept loop proceeds to the next connection whatever happened on
this one. -/
theorem handle_conn_continues (r : StreamRead) (pe : String → Bool)
    (alive : Bool) : (handle_conn r pe alive).continues = true := by
  cases r with
  | readErr e => rfl
  | bytes payload =>
    rw [handle_conn_bytes_def]
    by_cases h1 : (payload.take BUF_CAP).length > 0
    · rw [if_pos h1]
      by_cases h2 : pe (String.mk (payload.take BUF_CAP)) = true
      · rw [if_pos h2]
        cases alive
        · rw [if_neg (by decide : ¬(false = true))]
        · rw [if_pos rfl]
      · rw [if_neg h2]
    · rw [if_neg h1]

/-- C2. For a connection whose payload fits in the read buffer: the payload
is handed to the Dispatch Channel exactly when it is non-empty, its decoded
path exists on the filesystem, and the channel's consumer is still
connected; a valid payload with a live channel is enqueued and acknowledged
OK; a validation failure (empty or non-existing) is answered ERR with
nothing enqueued; a channel-send failure on a valid payload is answered ERR
with nothing enqueued; and the accept loop continues after every connection
outcome, including read errors. -/
theorem c2_accept_loop (payload : List Char) (path_exists : String → Bool)
    (alive : Bool) (hlen : payload.length ≤ BUF_CAP) :
    ((handle_conn (StreamRead.bytes payload) path_exists alive).enqueued ≠ none
        ↔ payload ≠ [] ∧ path_exists (String.mk payload) = true ∧ alive = true)
    ∧ (payload ≠ [] → path_exists (String.mk payload) = true → alive = true →
        handle_conn (StreamRead.bytes payload) path_exists alive
          = { enqueued := some (String.mk payload), ack := "OK", continues := true })
    ∧ (¬(payload ≠ [] ∧ path_exists (String.mk payload) = true) →
        handle_conn (StreamRead.bytes payload) path_exists alive
          = { enqueued := none, ack := "ERR", continues := true })
    ∧ (payload ≠ [] → path_exists (String.mk payload) = true → alive = false →
        handle_conn (StreamRead.bytes payload) path_exists alive
          = { enqueued := none, ack := "ERR", continues := true })
    ∧ (∀ r, (handle_conn r path_exists alive).continues = true) := by
  rw [handle_conn_bytes_eval payload path_exists alive hlen]
  refine ⟨?_, ?_, ?_, ?_, fun r => handle_conn_continues r path_exists alive⟩
  · by_cases hp : payload = [] <;>
      by_cases he : path_exists (String.mk payload) <;>
        cases alive <;> simp [hp, he]
  · intro hp he hal
    subst hal
    rw [if_neg hp, if_pos he, if_pos rfl]
  · intro hv
    by_cases hp : payload = []
    · rw [if_pos hp]
    · rw [if_neg hp]
      have he : ¬ path_exists (String.mk payload) = true := fun he =>
        hv ⟨hp, he⟩
      rw [if_neg he]
  · intro hp he hal
    subst hal
    rw [if_neg hp, if_pos he]
    rfl

/-- C2 witness: a one-byte payload naming an existing path on a live channel
is enqueued. -/
theorem c2_accept_loop_witness :
    (['a'] : List Char).length ≤ BUF_CAP
    ∧ (handle_conn (StreamRead.bytes ['a'])
        (fun s => s == "a") true).enqueued ≠ none := by
  refine ⟨by decide, ?_⟩
  exact (c2_accept_loop ['a'] (fun s => s == "a") true (by decide)).1.mpr
    ⟨by decide, by decide, rfl⟩

/-- A payload one byte longer than the read-buffer capacity. -/
def bigPayload : List Char := List.replicate (BUF_CAP + 1) 'a'

/-- An existence predicate under which precisely the strings of length
`BUF_CAP` name existing filesystem entries. -/
def capEx (s : String) : Bool := s.length == BUF_CAP

/-- C4 counterexample. A payload of 4097 bytes exceeds the 4096-byte buffer
cap, yet the server does not answer ERR: the single `read` call delivers the
4096-byte truncated load, which is decoded, validated and accepted — here
answered OK with the truncated string (not the sent payload) enqueued. -/
theorem c4_counterexample :
    bigPayload.length > BUF_CAP
    ∧ handle_conn (StreamRead.bytes bigPayload) capEx true
        = { enqueued := some (String.mk (List.replicate BUF_CAP 'a'))
            ack := "OK"
            continues := true }
    ∧ String.mk (List.replicate BUF_CAP 'a') ≠ String.mk bigPayload := by
  have hlen : bigPayload.length = BUF_CAP + 1 := by
    simp [bigPayload]
  have htake : bigPayload.take BUF_CAP = List.replicate BUF_CAP 'a' := by
    simp [bigPayload, List.take_replicate]
  refine ⟨by omega, ?_, ?_⟩
  · rw [handle_conn_bytes_def, htake]
    have h1 : (List.replicate BUF_CAP 'a').length > 0 := by
      rw [List.length_replicate]
      decide
    have h2 : capEx (String.mk (List.replicate BUF_CAP 'a')) = true := by
      show ((List.replicate BUF_CAP 'a').length == BUF_CAP) = true
      rw [List.length_replicate]
      decide
    rw [if_pos h1, if_pos h2, if_pos rfl]
  · intro hcon
    have hdata : List.replicate BUF_CAP 'a' = bigPayload :=
      congrArg String.data hcon
    have hl := congrArg List.length hdata
    rw [hlen] at hl
    simp at hl

/-- C4 amended: a payload longer than the 4096-byte buffer cap is not
rejected: the server handles it exactly as it would the truncated 4096-byte
load, the full payload is never the enqueued path, and when the
truncation names an existing entry (and the channel is live) the server even
answers OK for data the client never sent in that form. -/
theorem c4_truncation (payload : List Char) (pe : String → Bool)
    (alive : Bool) (h : payload.length > BUF_CAP) :
    handle_conn (StreamRead.bytes payload) pe alive
        = handle_conn (StreamRead.bytes (payload.take BUF_CAP)) pe alive
    ∧ (∀ p, (handle_conn (StreamRead.bytes payload) pe alive).enqueued = some p
        → p ≠ String.mk payload)
    ∧ (pe (String.mk (payload.take BUF_CAP)) = true → alive = true →
        (handle_conn (StreamRead.bytes payload) pe alive).ack = "OK") := by
  have hlen : (payload.take BUF_CAP).length = BUF_CAP := by
    rw [List.length_take]
    omega
  have heq : handle_conn (StreamRead.bytes payload) pe alive
      = handle_conn (StreamRead.bytes (payload.take BUF_CAP)) pe alive := by
    rw [handle_conn_bytes_def payload pe alive,
      handle_conn_bytes_def (payload.take BUF_CAP) pe alive,
      List.take_take]
    simp
  refine ⟨heq, ?_, ?_⟩
  · intro p hp hcontra
    rw [handle_conn_bytes_def] at hp
    by_cases h1 : (payload.take BUF_CAP).length > 0
    · rw [if_pos h1] at hp
      by_cases h2 : pe (String.mk (payload.take BUF_CAP)) = true
      · rw [if_pos h2] at hp
        cases alive with
        | false =>
          rw [if_neg (by decide : ¬(false = true))] at hp
          exact Option.noConfusion hp
        | true =>
          rw [if_pos rfl] at hp
          have hpe : String.mk (payload.take BUF_CAP) = p :=
            Option.some.inj hp
          rw [hcontra] at hpe
          have hdata : payload.take BUF_CAP = payload :=
            congrArg String.data hpe
          have hl := congrArg List.length hdata
          rw [hlen] at hl
          omega
      · rw [if_neg h2] at hp
        exact Option.noConfusion hp
    · rw [if_neg h1] at hp
      exact Option.noConfusion hp
  · intro hpe hal
    subst hal
    rw [heq, handle_conn_bytes_eval (payload.take BUF_CAP) pe true
      (by rw [hlen])]
    have hne : payload.take BUF_CAP ≠ [] := by
      intro hnil
      rw [hnil] at hlen
      simp [BUF_CAP] at hlen
    rw [if_neg hne, if_pos hpe, if_pos rfl]

/-- C4 witness for the amended statement: the oversized payload is accepted
with acknowledgment OK. -/
theorem c4_truncation_witness :
    bigPayload.length > BUF_CAP
    ∧ (handle_conn (StreamRead.bytes bigPayload) capEx true).ack = "OK" := by
  have h : bigPayload.length > BUF_CAP := by
    simp [bigPayload]
  refine ⟨h, ?_⟩
  have hpe : capEx (String.mk (bigPayload.take BUF_CAP)) = true := by
    have htake : bigPayload.take BUF_CAP = List.replicate BUF_CAP 'a' := by
      simp [bigPayload, List.take_replicate]
    rw [htake]
    simp [capEx, String.length]
  exact (c4_truncation bigPayload capEx true h).2.2 hpe rfl

/-- Definitional unfolding of `load_gif` when the decoder constructor
succeeded and the frames iterator was run. -/
theorem load_gif_frameResults (s : TimbaApp)
    (rs : List (Except String (Frame × Nat))) (now : Nat) :
    TimbaApp.load_gif s (GifFile.frameResults rs) now =
      match TimbaApp.collectFrames rs with
      | Except.error e =>
        LoadResult.ok
          { s with error_message := some ("Failed to decode frame: " ++ e) }
      | Except.ok [] => LoadResult.ok s
      | Except.ok (f0 :: rest) =>
        LoadResult.ok (TimbaApp.update_texture
          { s with
            original_size := some (f0.1.width, f0.1.height)
            gif_frames := some (f0 :: rest)
            current_frame := 0
            last_frame_time := now
            is_animated := true }) := rfl

/-- Whether the animation-frame sequence is present and non-empty. -/
def framesNonempty (s : TimbaApp) : Bool :=
  match s.gif_frames with
  | some fr => !fr.isEmpty
  | none => false

/-- The animated-flag half of the ViewerState invariant: `is_animated` holds
exactly when the frame sequence is present and non-empty. -/
def animInv (s : TimbaApp) : Prop := s.is_animated = framesNonempty s

/-- C5 counterexample. After a successful animated load, the decoded frame
(`texture`) and the animation-frame sequence (`gif_frames`) are both present
at the same instant — the texture holds the current animation frame — so the
claimed mutual exclusivity of the two fields fails on the code. -/
theorem c5_counterexample :
    (okState (TimbaApp.load_gif (TimbaApp.new ("/tmp/a.gif") 0)
        goodGif 7)).texture ≠ none
    ∧ (okState (TimbaApp.load_gif (TimbaApp.new ("/tmp/a.gif") 0)
        goodGif 7)).gif_frames ≠ none := by decide

/-- C5 amended: after every operation that mutates ViewerState
(construction, new-message reset, static load, animated load, tick), the
animated-flag is true if and only if the animation-frame sequence is present
and non-empty. (The original claim's second conjunct — that the decoded
frame and the frame sequence are never both present — fails: during animated
playback the texture holds the current animation frame.) -/
theorem c5_animated_flag_invariant (s : TimbaApp) (p : String) (now : Nat)
    (img : Except String Frame) (g : GifFile) (h : animInv s) :
    animInv (TimbaApp.new p now)
    ∧ animInv (TimbaApp.on_new_path s p)
    ∧ animInv (TimbaApp.load_static_image s img)
    ∧ (∀ s', TimbaApp.load_gif s g now = LoadResult.ok s' → animInv s')
    ∧ animInv (TimbaApp.update_animation s now) := by
  refine ⟨rfl, rfl, ?_, ?_, ?_⟩
  · cases img with
    | ok f => rfl
    | error e => exact h
  · intro s' hs'
    cases g with
    | openErr e =>
      cases hs'
      exact h
    | headerErr e => cases hs'
    | frameResults rs =>
      rw [load_gif_frameResults] at hs'
      cases hc : TimbaApp.collectFrames rs with
      | error e =>
        rw [hc] at hs'
        cases hs'
        exact h
      | ok gfs =>
        rw [hc] at hs'
        cases gfs with
        | nil =>
          cases hs'
          exact h
        | cons f0 rest =>
          cases hs'
          show (TimbaApp.update_texture _).is_animated = framesNonempty _
          rw [(update_texture_fields _).2.2.1]
          unfold framesNonempty
          rw [(update_texture_fields _).1]
          rfl
  · show (TimbaApp.update_animation s now).is_animated
      = framesNonempty (TimbaApp.update_animation s now)
    rcases update_animation_cases s now with hcase | ⟨frames, hlt, hf, _, hcase⟩
    · rw [hcase]
      exact h
    · rw [hcase, (update_texture_fields _).2.2.1]
      unfold framesNonempty
      rw [(update_texture_fields _).1]
      exact h

/-- C5 witness for the amended invariant: the fresh state satisfies the
invariant and the reset preserves it. -/
theorem c5_animated_flag_invariant_witness :
    animInv (TimbaApp.new ("/tmp/x.png") 0)
    ∧ animInv (TimbaApp.on_new_path (TimbaApp.new ("/tmp/x.png") 0)
        ("/tmp/y.png")) := by
  refine ⟨rfl, ?_⟩
  exact (c5_animated_flag_invariant (TimbaApp.new ("/tmp/x.png") 0)
    ("/tmp/y.png") 0 (Except.error ("e")) goodGif rfl).2.1

/-- The index-bound half of the ViewerState invariant: whenever the
animation-frame sequence is present, the current index is strictly below its
length. -/
def framesIndexInv (s : TimbaApp) : Prop :=
  ∀ fr, s.gif_frames = some fr → s.current_frame < fr.length

/-- C10. The index bound is established at construction and by the animated
load (index 0 on a non-empty sequence), preserved by the new-message reset,
the static load, and the modular tick advance; and under the bound the
texture upload reads exactly the in-bounds frame at the current index. -/
theorem c10_index_in_bounds (s : TimbaApp) (p : String) (now : Nat)
    (img : Except String Frame) (g : GifFile) (h : framesIndexInv s) :
    framesIndexInv (TimbaApp.new p now)
    ∧ framesIndexInv (TimbaApp.on_new_path s p)
    ∧ framesIndexInv (TimbaApp.load_static_image s img)
    ∧ (∀ s', TimbaApp.load_gif s g now = LoadResult.ok s' → framesIndexInv s')
    ∧ framesIndexInv (TimbaApp.update_animation s now)
    ∧ (∀ fr, s.gif_frames = some fr →
        ∃ hlt : s.current_frame < fr.length,
          (TimbaApp.update_texture s).texture
            = some (fr.get ⟨s.current_frame, hlt⟩).1) := by
  refine ⟨?_, ?_, ?_, ?_, ?_, ?_⟩
  · intro fr hfr
    exact Option.noConfusion hfr
  · intro fr hfr
    exact Option.noConfusion hfr
  · cases img with
    | ok f =>
      intro fr hfr
      exact Option.noConfusion hfr
    | error e => exact h
  · intro s' hs'
    cases g with
    | openErr e =>
      cases hs'
      exact h
    | headerErr e => cases hs'
    | frameResults rs =>
      rw [load_gif_frameResults] at hs'
      cases hc : TimbaApp.collectFrames rs with
      | error e =>
        rw [hc] at hs'
        cases hs'
        exact h
      | ok gfs =>
        rw [hc] at hs'
        cases gfs with
        | nil =>
          cases hs'
          exact h
        | cons f0 rest =>
          cases hs'
          intro fr hfr
          rw [(update_texture_fields _).1] at hfr
          cases hfr
          rw [(update_texture_fields _).2.1]
          exact Nat.succ_pos _
  · rcases update_animation_cases s now with hcase | ⟨frames, hlt, hf, _, hcase⟩
    · rw [hcase]
      exact h
    · rw [hcase]
      intro fr hfr
      rw [(update_texture_fields _).1] at hfr
      have hfr2 : some frames = some fr := hf.symm.trans hfr
      cases Option.some.inj hfr2
      rw [(update_texture_fields _).2.1]
      exact Nat.mod_lt _ (Nat.lt_of_le_of_lt (Nat.zero_le _) hlt)
  · intro fr hfr
    have hlt := h fr hfr
    refine ⟨hlt, ?_⟩
    have hrw : TimbaApp.update_texture s
        = { s with texture := some (fr.get ⟨s.current_frame, hlt⟩).1 } := by
      unfold TimbaApp.update_texture
      rw [hfr]
      exact dif_pos hlt
    rw [hrw]

/-- C10 witness: the fresh state satisfies the bound and the reset preserves
it. -/
theorem c10_index_in_bounds_witness :
    framesIndexInv (TimbaApp.new ("/tmp/x.png") 0)
    ∧ framesIndexInv (TimbaApp.on_new_path (TimbaApp.new ("/tmp/x.png") 0)
        ("/tmp/y.png")) := by
  have hinv : framesIndexInv (TimbaApp.new ("/tmp/x.png") 0) :=
    fun fr hfr => Option.noConfusion hfr
  exact ⟨hinv, (c10_index_in_bounds (TimbaApp.new ("/tmp/x.png") 0)
    ("/tmp/y.png") 0 (Except.error ("e")) goodGif hinv).2.1⟩

/-- C8. Classification is by file extension alone: the animated decode path
is taken exactly when the path's extension (in the `std::path::Path`
semantics) is the string "gif"; any other path is handed to the static
loader regardless of what its bytes decode to. The sample classifications
exercise the extension semantics: case sensitivity, hidden files without an
extension, and multi-dot names. -/
theorem c8_extension_classification (p : String) (s : TimbaApp)
    (fs : String → FSFile) (now : Nat) :
    (classify p = Branch.gifBranch ↔ path_extension p = some ("gif"))
    ∧ (path_extension s.image_path = some ("gif") →
        TimbaApp.load_image s fs now
          = TimbaApp.load_gif s (fs s.image_path).gifView now)
    ∧ (path_extension s.image_path ≠ some ("gif") →
        TimbaApp.load_image s fs now
          = LoadResult.ok
              (TimbaApp.load_static_image s (fs s.image_path).staticView))
    ∧ classify ("/tmp/b.gif") = Branch.gifBranch
    ∧ classify ("/tmp/b.png") = Branch.staticBranch
    ∧ classify ("/tmp/.gif") = Branch.staticBranch
    ∧ classify ("/tmp/b.GIF") = Branch.staticBranch
    ∧ classify ("b.tar.gif") = Branch.gifBranch := by
  have hcl : ∀ q, classify q = Branch.gifBranch
      ↔ path_extension q = some ("gif") := by
    intro q
    unfold classify
    by_cases hq : path_extension q = some ("gif")
    · rw [if_pos (by rw [hq]; rfl)]
      exact ⟨fun _ => hq, fun _ => rfl⟩
    · rw [if_neg (fun hbeq => hq (eq_of_beq hbeq))]
      exact ⟨fun hcontra => Branch.noConfusion hcontra, fun hcontra =>
        absurd hcontra hq⟩
  refine ⟨hcl p, ?_, ?_, by decide, by decide, by decide, by decide, by decide⟩
  · intro hgif
    unfold TimbaApp.load_image
    rw [(hcl s.image_path).mpr hgif]
  · intro hnot
    unfold TimbaApp.load_image
    cases hb : classify s.image_path with
    | gifBranch => exact absurd ((hcl s.image_path).mp hb) hnot
    | staticBranch => rfl

/-- C8 witness: a non-gif path goes through the static loader even on a
filesystem where every file fails to decode. -/
theorem c8_extension_classification_witness :
    path_extension ("/tmp/b.png") ≠ some ("gif")
    ∧ TimbaApp.load_image (TimbaApp.new ("/tmp/b.png") 0) stubFS 0
      = LoadResult.ok
          (TimbaApp.load_static_image (TimbaApp.new ("/tmp/b.png") 0)
            (Except.error ("no"))) := by
  refine ⟨by decide, ?_⟩
  exact (c8_extension_classification ("/tmp/b.png")
    (TimbaApp.new ("/tmp/b.png") 0) stubFS 0).2.2.1 (by decide)

end Timba

